import Mathlib

/-!
Verification of the playback/queue state machine of the Web-song-player
repository against its natural-language specification.

The authoritative source is src/src/pages/Index.tsx (the library-of-playlists
variant with a play queue); src/unnamed/part_000 is an earlier variant of the
same page without the queue.  All definitions below are shallow embeddings of
the TypeScript functions of Index.tsx, with React state captured in a single
record and each handler modelled as a pure state transformer.  Array indices
are modelled as Int because JavaScript numbers are not restricted to valid
indices anywhere in the source (no handler performs a bounds check).
-/

namespace WebSongPlayer

/-- Track record, Index.tsx lines 280-283: a display name and an object URL. -/
structure Track where
  name : String
  url : String
deriving DecidableEq, Repr

/-- Playlist record, Index.tsx lines 285-288. -/
structure Playlist where
  name : String
  tracks : List Track
deriving DecidableEq, Repr

/-- Queue entry, Index.tsx lines 290-293: a (playlistIndex, trackIndex)
reference into the library. -/
structure QueuedTrack where
  playlistIndex : Int
  trackIndex : Int
deriving DecidableEq, Repr

/-- The React state of MusicPlayerPage, Index.tsx lines 303-307.  The
transient metrics progress, duration and currentTime are advisory only (they
appear in no transition rule) and are omitted.  isLoading only gates the
upload button and is omitted as well. -/
structure PlayerState where
  playlists : List Playlist
  queue : List QueuedTrack
  currentPlaylistIndex : Option Int
  currentTrackIndex : Option Int
  isPlaying : Bool
deriving DecidableEq, Repr

/-- Initial state: useState defaults of Index.tsx lines 303-307. -/
def initialState : PlayerState :=
  { playlists := [], queue := [], currentPlaylistIndex := none,
    currentTrackIndex := none, isPlaying := false }

/-- JavaScript array indexing arr[i]: undefined (none) for negative or
out-of-range indices. -/
def jsIndex (l : List α) (i : Int) : Option α :=
  if 0 ≤ i then l[i.toNat]? else none

/-- Derived value currentPlaylist, Index.tsx line 372:
currentPlaylistIndex !== null ? playlists[currentPlaylistIndex] : null. -/
def currentPlaylist (s : PlayerState) : Option Playlist :=
  match s.currentPlaylistIndex with
  | none => none
  | some i => jsIndex s.playlists i

/-- The fallback index computation of playNext, Index.tsx lines 386-391:
null or last index wraps to 0, otherwise increment. -/
def wrapNext (len : Nat) (prev : Option Int) : Int :=
  match prev with
  | none => 0
  | some p => if p = (len : Int) - 1 then 0 else p + 1

/-- The index computation of playPrevious, Index.tsx lines 397-402:
null or 0 wraps to the last index, otherwise decrement. -/
def wrapPrev (len : Nat) (prev : Option Int) : Int :=
  match prev with
  | none => (len : Int) - 1
  | some p => if p = 0 then (len : Int) - 1 else p - 1

/-- playNext, Index.tsx lines 375-393.  With a non-empty queue it consumes
the queue head and selects it; otherwise, with a playlist selected, it
advances by the wrap-around rule; with no playlist selected it is a no-op. -/
def playNext (s : PlayerState) : PlayerState :=
  match s.queue with
  | nextInQueue :: rest =>
    { s with queue := rest,
             currentPlaylistIndex := some nextInQueue.playlistIndex,
             currentTrackIndex := some nextInQueue.trackIndex,
             isPlaying := true }
  | [] =>
    match currentPlaylist s with
    | none => s
    | some pl =>
      { s with currentTrackIndex := some (wrapNext pl.tracks.length s.currentTrackIndex),
               isPlaying := true }

/-- playPrevious, Index.tsx lines 395-404. -/
def playPrevious (s : PlayerState) : PlayerState :=
  match currentPlaylist s with
  | none => s
  | some pl =>
    { s with currentTrackIndex := some (wrapPrev pl.tracks.length s.currentTrackIndex),
             isPlaying := true }

/-- togglePlayPause, Index.tsx lines 406-409. -/
def togglePlayPause (s : PlayerState) : PlayerState :=
  match s.currentTrackIndex with
  | none => s
  | some _ => { s with isPlaying := !s.isPlaying }

/-- selectTrack, Index.tsx lines 411-414: sets the track index with no
validation and no reference to the playlist index. -/
def selectTrack (s : PlayerState) (index : Int) : PlayerState :=
  { s with currentTrackIndex := some index, isPlaying := true }

/-- handlePlaylistChange, Index.tsx lines 416-423 (the Select component
passes index.toString(), so the parseInt round-trips the index).  No bounds
check is performed on the index. -/
def handlePlaylistChange (s : PlayerState) (index : Int) : PlayerState :=
  if some index ≠ s.currentPlaylistIndex then
    { s with currentPlaylistIndex := some index,
             currentTrackIndex := some 0,
             isPlaying := true }
  else s

/-- addToQueue, Index.tsx lines 438-442: appends the entry at the back of
the queue.  (Line 440 additionally reads the track name for a toast; the
handler is only invoked by the track list with the valid pair of the row.) -/
def addToQueue (s : PlayerState) (playlistIndex trackIndex : Int) : PlayerState :=
  { s with queue := s.queue ++ [{ playlistIndex := playlistIndex, trackIndex := trackIndex }] }

/-- removeFromQueue, Index.tsx lines 444-446: keeps every entry whose
position differs from the given one. -/
def removeFromQueue (s : PlayerState) (queueIndex : Int) : PlayerState :=
  { s with queue := (s.queue.enum.filter (fun p => ((p.1 : Int)) ≠ queueIndex)).map (·.2) }

/-- The ended event wiring, Index.tsx lines 479 and 483:
handleEnded = () => playNext(). -/
def onTrackEnded (s : PlayerState) : PlayerState :=
  playNext s

/-- The SkipForward button wiring, Index.tsx line 555: onClick={playNext}.
Manual next is the very same function as automatic advance. -/
def manualAdvanceNext (s : PlayerState) : PlayerState :=
  playNext s

/-- Code-unit lexicographic three-way comparison of character lists.  This is
the comparison JavaScript applies to strings; it is the building block of the
localeCompare model below. -/
def lexCmp : List Char → List Char → Int
  | [], [] => 0
  | [], _ :: _ => -1
  | _ :: _, [] => 1
  | a :: as, b :: bs =>
    if a < b then -1
    else if b < a then 1
    else lexCmp as bs

/-- The lowercased character sequence of a string (JavaScript toLowerCase,
exact for the ASCII file names handled here). -/
def lowerChars (s : String) : List Char :=
  s.data.map Char.toLower

/-- The case pattern of a string: one marker character per position, with
uppercase marked by the later character.  Comparing the patterns
lexicographically orders lowercase before uppercase at the first position
where two case-variants of the same word differ. -/
def caseChars (s : String) : List Char :=
  s.data.map fun c => if c.isUpper then 'b' else 'a'

/-- Model of JavaScript String.prototype.localeCompare with no locale
argument (Index.tsx line 351), restricted to the ASCII track names this
player handles.  In the default root/English collation of every mainstream
engine (ICU), the primary level compares letters case-insensitively and a
later case level orders lowercase before uppercase at the first differing
position; for example "b".localeCompare("B") is -1 and
"B".localeCompare("b") is 1, while distinct base letters compare by
alphabet.  This model realises exactly that: a case-insensitive primary
comparison, then the case pattern as tie-breaker. -/
def localeCompare (a b : String) : Int :=
  let p := lexCmp (lowerChars a) (lowerChars b)
  if p = 0 then lexCmp (caseChars a) (caseChars b) else p

/-- The sort relation the code passes to Array.prototype.sort on line 351:
(a, b) => a.name.localeCompare(b.name), read as a non-positive comparison. -/
def trackLe (a b : Track) : Prop :=
  localeCompare a.name b.name ≤ 0

instance : DecidableRel trackLe := fun a b =>
  show Decidable (localeCompare a.name b.name ≤ 0) from inferInstance

/-- The track sort of handleFileUpload, Index.tsx line 351:
audioFiles.sort((a, b) => a.name.localeCompare(b.name)).  ECMAScript
Array.prototype.sort is a stable sort, and for a consistent comparator the
stably sorted result is unique, so it is embedded as the stable
insertionSort with the localeCompare relation. -/
def sortTracks (audioFiles : List Track) : List Track :=
  List.insertionSort trackLe audioFiles

/-- The sort order claimed by the spec (spec words, for comparison with
sortTracks): case-insensitive lexical comparison of the names with ties kept
in the original relative order, realised as the stable insertionSort with
the purely case-insensitive relation. -/
def ciTrackLe (a b : Track) : Prop :=
  lexCmp (lowerChars a.name) (lowerChars b.name) ≤ 0

instance : DecidableRel ciTrackLe := fun a b =>
  show Decidable (lexCmp (lowerChars a.name) (lowerChars b.name) ≤ 0) from inferInstance

/-- The track order the specification asserts for a new playlist. -/
def specSortTracks (audioFiles : List Track) : List Track :=
  List.insertionSort ciTrackLe audioFiles

/-- handleFileUpload, Index.tsx lines 326-370, taken after the external
archive extraction: the function receives the extracted audio track list
(the pushes of line 342) and the zip file name.  Lines 348-361: with at
least one track, a new playlist with the sorted tracks is appended, and if
no playlist was selected the selection becomes (0, 0); with no tracks,
nothing happens.  isPlaying and the queue are never touched. -/
def handleFileUpload (s : PlayerState) (zipName : String) (audioFiles : List Track) : PlayerState :=
  if audioFiles.length > 0 then
    if s.currentPlaylistIndex = none then
      { s with playlists := s.playlists ++ [{ name := zipName, tracks := sortTracks audioFiles }],
               currentPlaylistIndex := some 0,
               currentTrackIndex := some 0 }
    else
      { s with playlists := s.playlists ++ [{ name := zipName, tracks := sortTracks audioFiles }] }
  else s

/-- The error taxonomy of the specification, section 7. -/
inductive UploadError where
  | EmptyPlaylist
  | UnreadableArchive
deriving DecidableEq, Repr

/-- handleFileUpload together with its only reporting channel.  The input is
the result of the JSZip extraction (Except models success or the rejection
caught on line 362); on rejection the catch block logs the error and changes
no state, and the try block contains no reporting of any kind for the
empty-track-list case, so that branch yields the unchanged state and no
error value. -/
def handleFileUploadE (s : PlayerState) (zipName : String)
    (extraction : Except Unit (List Track)) : PlayerState × Option UploadError :=
  match extraction with
  | Except.error _ => (s, some UploadError.UnreadableArchive)
  | Except.ok audioFiles => (handleFileUpload s zipName audioFiles, none)

/-- Queue append as a pure list operation, from addToQueue line 439. -/
def enqueue (q : List QueuedTrack) (playlistIndex trackIndex : Int) : List QueuedTrack :=
  q ++ [{ playlistIndex := playlistIndex, trackIndex := trackIndex }]

/-- Head consumption as a pure list operation, from the queue branch of
playNext, lines 376-383: read queue[0] and keep queue.slice(1). -/
def popFront (q : List QueuedTrack) : Option (QueuedTrack × List QueuedTrack) :=
  match q with
  | [] => none
  | e :: rest => some (e, rest)

/-! Order lemmas for the comparison model, feeding the Mathlib sorting
lemmas used by the playlist-sort claims. -/

theorem lexCmp_neg : ∀ as bs : List Char, lexCmp as bs = - lexCmp bs as
  | [], [] => rfl
  | [], _ :: _ => rfl
  | _ :: _, [] => rfl
  | a :: as, b :: bs => by
    simp only [lexCmp]
    rcases lt_trichotomy a b with h | h | h
    · simp [h, asymm h]
    · subst h
      simp [lt_irrefl, lexCmp_neg as bs]
    · simp [h, asymm h]

theorem lexCmp_eq_zero_iff : ∀ as bs : List Char, lexCmp as bs = 0 ↔ as = bs
  | [], [] => by simp [lexCmp]
  | [], _ :: _ => by simp [lexCmp]
  | _ :: _, [] => by simp [lexCmp]
  | a :: as, b :: bs => by
    simp only [lexCmp]
    rcases lt_trichotomy a b with h | h | h
    · simp [h, ne_of_lt h]
    · subst h
      simp [lt_irrefl, lexCmp_eq_zero_iff as bs]
    · simp [h, asymm h, ne_of_gt h]

theorem lexCmp_nonpos_trans : ∀ as bs cs : List Char,
    lexCmp as bs ≤ 0 → lexCmp bs cs ≤ 0 → lexCmp as cs ≤ 0
  | [], _, [] => by intro _ _; simp [lexCmp]
  | [], _, _ :: _ => by intro _ _; simp [lexCmp]
  | _ :: _, [], _ => by intro h _; simp [lexCmp] at h
  | _ :: _, _ :: _, [] => by intro _ h; simp [lexCmp] at h
  | a :: as, b :: bs, c :: cs => by
    intro h1 h2
    simp only [lexCmp] at h1 h2 ⊢
    rcases lt_trichotomy a b with hab | hab | hab
    · rcases lt_trichotomy b c with hbc | hbc | hbc
      · simp [lt_trans hab hbc]
      · subst hbc; simp [hab]
      · rw [if_neg (asymm hbc), if_pos hbc] at h2; omega
    · subst hab
      rcases lt_trichotomy a c with hac | hac | hac
      · simp [hac]
      · subst hac
        simp only [lt_irrefl, if_neg] at h1 h2 ⊢
        exact lexCmp_nonpos_trans as bs cs h1 h2
      · rw [if_neg (asymm hac), if_pos hac] at h2; omega
    · rw [if_neg (asymm hab), if_pos hab] at h1; omega

theorem localeCompare_nonpos_iff (a b : String) :
    localeCompare a b ≤ 0 ↔
      lexCmp (lowerChars a) (lowerChars b) < 0 ∨
        (lowerChars a = lowerChars b ∧ lexCmp (caseChars a) (caseChars b) ≤ 0) := by
  unfold localeCompare
  by_cases h : lexCmp (lowerChars a) (lowerChars b) = 0
  · have e := (lexCmp_eq_zero_iff _ _).mp h
    rw [if_pos h]
    constructor
    · intro hk; exact Or.inr ⟨e, hk⟩
    · rintro (hlt | ⟨_, hk⟩)
      · omega
      · exact hk
  · have hne : lowerChars a ≠ lowerChars b := fun e => h ((lexCmp_eq_zero_iff _ _).mpr e)
    simp [h, hne]
    omega

theorem localeCompare_nonpos_trans (a b c : String)
    (hab : localeCompare a b ≤ 0) (hbc : localeCompare b c ≤ 0) :
    localeCompare a c ≤ 0 := by
  rw [localeCompare_nonpos_iff] at hab hbc ⊢
  rcases hab with h1 | ⟨e1, k1⟩ <;> rcases hbc with h2 | ⟨e2, k2⟩
  · left
    have hle : lexCmp (lowerChars a) (lowerChars c) ≤ 0 :=
      lexCmp_nonpos_trans _ _ _ (le_of_lt h1) (le_of_lt h2)
    rcases lt_or_eq_of_le hle with h | h
    · exact h
    · exfalso
      have e := (lexCmp_eq_zero_iff _ _).mp h
      rw [← e] at h2
      have := lexCmp_neg (lowerChars b) (lowerChars a)
      omega
  · left; rw [← e2]; exact h1
  · left; rw [e1]; exact h2
  · right; exact ⟨e1.trans e2, lexCmp_nonpos_trans _ _ _ k1 k2⟩

theorem localeCompare_nonpos_total (a b : String) :
    localeCompare a b ≤ 0 ∨ localeCompare b a ≤ 0 := by
  rw [localeCompare_nonpos_iff, localeCompare_nonpos_iff]
  by_cases h : lowerChars a = lowerChars b
  · have hc := lexCmp_neg (caseChars a) (caseChars b)
    by_cases hk : lexCmp (caseChars a) (caseChars b) ≤ 0
    · exact Or.inl (Or.inr ⟨h, hk⟩)
    · exact Or.inr (Or.inr ⟨h.symm, by omega⟩)
  · have hne : lexCmp (lowerChars a) (lowerChars b) ≠ 0 :=
      fun e => h ((lexCmp_eq_zero_iff _ _).mp e)
    have hp := lexCmp_neg (lowerChars a) (lowerChars b)
    by_cases hlt : lexCmp (lowerChars a) (lowerChars b) < 0
    · exact Or.inl (Or.inl hlt)
    · exact Or.inr (Or.inl (by omega))

instance : IsTrans Track trackLe :=
  ⟨fun a b c => localeCompare_nonpos_trans a.name b.name c.name⟩

instance : IsTotal Track trackLe :=
  ⟨fun a b => localeCompare_nonpos_total a.name b.name⟩

/-- The PlaybackSelection invariant of the specification: the playlist index
and the track index are both none or both set. -/
def selectionInv (s : PlayerState) : Prop :=
  s.currentPlaylistIndex = none ↔ s.currentTrackIndex = none

instance (s : PlayerState) : Decidable (selectionInv s) :=
  show Decidable (s.currentPlaylistIndex = none ↔ s.currentTrackIndex = none) from
    inferInstance

/-! Concrete fixtures used by witnesses and counterexamples. -/

def tA : Track := { name := "alpha.mp3", url := "a" }
def tB : Track := { name := "beta.mp3", url := "b" }
def tC : Track := { name := "gamma.mp3", url := "c" }

def bUp : Track := { name := "B.mp3", url := "u1" }
def bLo : Track := { name := "b.mp3", url := "u2" }

def plA : Playlist := { name := "A.zip", tracks := [tA, tB, tC] }
def plB : Playlist := { name := "B.zip", tracks := [tA] }

/-- Two playlists, selection (0, 0), one queued entry referencing the second
playlist. -/
def st1 : PlayerState :=
  { playlists := [plA, plB], queue := [⟨1, 0⟩],
    currentPlaylistIndex := some 0, currentTrackIndex := some 0, isPlaying := true }

/-- One playlist of three tracks, empty queue, last track selected, paused. -/
def st2 : PlayerState :=
  { playlists := [plA], queue := [],
    currentPlaylistIndex := some 0, currentTrackIndex := some 2, isPlaying := false }

/-- One playlist, empty queue, selection (0, 0), not playing. -/
def st3 : PlayerState :=
  { playlists := [plA], queue := [],
    currentPlaylistIndex := some 0, currentTrackIndex := some 0, isPlaying := false }

/-- One playlist of three tracks, last track selected, and a queued entry
whose track index is the last track as well. -/
def st4 : PlayerState :=
  { playlists := [plA], queue := [⟨0, 2⟩],
    currentPlaylistIndex := some 0, currentTrackIndex := some 2, isPlaying := true }

/-! Claim theorems. -/

/-- C1: for every state with a non-empty queue, the end-of-track transition
selects exactly the former queue head (its playlistIndex and trackIndex),
regardless of the current selection, removes exactly that entry from the
queue, sets the status to Playing, and leaves everything else (library)
unchanged, never reaching the wrap-around branch. -/
theorem C1_ended_queue_preemption (s : PlayerState) (e : QueuedTrack)
    (rest : List QueuedTrack) (h : s.queue = e :: rest) :
    onTrackEnded s =
      { s with queue := rest,
               currentPlaylistIndex := some e.playlistIndex,
               currentTrackIndex := some e.trackIndex,
               isPlaying := true } := by
  unfold onTrackEnded playNext
  rw [h]

/-- Witness for C1 at a concrete state: the queued entry (1, 0) preempts the
selection (0, 0). -/
theorem C1_ended_queue_preemption_witness :
    st1.queue = ⟨1, 0⟩ :: [] ∧
    onTrackEnded st1 =
      { st1 with queue := [],
                 currentPlaylistIndex := some (1 : Int),
                 currentTrackIndex := some (0 : Int),
                 isPlaying := true } :=
  ⟨rfl, C1_ended_queue_preemption st1 ⟨1, 0⟩ [] rfl⟩

/-- C2 counterexample: a manual Next (the SkipForward button, which invokes
the very same playNext as the ended event) with a non-empty queue does
consume the queue head and even jumps to the playlist the head references,
refuting the claim that manual Next never consults or consumes the queue. -/
theorem C2_manual_next_cex :
    (manualAdvanceNext st1).queue ≠ st1.queue ∧
    (manualAdvanceNext st1).currentPlaylistIndex ≠ st1.currentPlaylistIndex := by
  decide

/-- C2 amended: the manual Next action is the identical function to the
automatic end-of-track advance; with a non-empty queue it consumes the head
entry and selects it, and only with an empty queue does it leave the queue
unchanged and compute the new track index from the selected playlist by the
wrap-around rule. -/
theorem C2_manual_next_amended (s : PlayerState) :
    manualAdvanceNext s = onTrackEnded s ∧
    (∀ e rest, s.queue = e :: rest →
      manualAdvanceNext s =
        { s with queue := rest,
                 currentPlaylistIndex := some e.playlistIndex,
                 currentTrackIndex := some e.trackIndex,
                 isPlaying := true }) ∧
    (s.queue = [] →
      (manualAdvanceNext s).queue = s.queue ∧
      ∀ pl, currentPlaylist s = some pl →
        manualAdvanceNext s =
          { s with currentTrackIndex := some (wrapNext pl.tracks.length s.currentTrackIndex),
                   isPlaying := true }) := by
  refine ⟨rfl, ?_, ?_⟩
  · intro e rest h
    unfold manualAdvanceNext playNext
    rw [h]
  · intro h
    unfold manualAdvanceNext playNext
    rw [h]
    cases hpl : currentPlaylist s with
    | none => exact ⟨h, fun pl hp => nomatch hp⟩
    | some pl =>
      refine ⟨rfl, fun pl1 hp => ?_⟩
      cases hp
      rfl

/-- Witness for C2 amended at a concrete state with a non-empty queue. -/
theorem C2_manual_next_amended_witness :
    st1.queue = ⟨1, 0⟩ :: [] ∧
    manualAdvanceNext st1 =
      { st1 with queue := [],
                 currentPlaylistIndex := some (1 : Int),
                 currentTrackIndex := some (0 : Int),
                 isPlaying := true } :=
  ⟨rfl, (C2_manual_next_amended st1).2.1 ⟨1, 0⟩ [] rfl⟩

/-- C3: with an empty queue and a playlist selected, the end-of-track
transition is the same state transformation as a manual Next, and both equal
the wrap-around advance on the selected playlist. -/
theorem C3_ended_empty_queue_eq_manual (s : PlayerState) (pl : Playlist)
    (hq : s.queue = []) (hpl : currentPlaylist s = some pl) :
    onTrackEnded s = manualAdvanceNext s ∧
    onTrackEnded s =
      { s with currentTrackIndex := some (wrapNext pl.tracks.length s.currentTrackIndex),
               isPlaying := true } := by
  refine ⟨rfl, ?_⟩
  unfold onTrackEnded playNext
  rw [hq, hpl]

/-- Witness for C3 at a concrete empty-queue state. -/
theorem C3_ended_empty_queue_eq_manual_witness :
    st2.queue = [] ∧ currentPlaylist st2 = some plA ∧
    (onTrackEnded st2 = manualAdvanceNext st2 ∧
     onTrackEnded st2 =
       { st2 with currentTrackIndex := some (wrapNext plA.tracks.length st2.currentTrackIndex),
                  isPlaying := true }) :=
  ⟨rfl, by decide, C3_ended_empty_queue_eq_manual st2 plA rfl (by decide)⟩

/-- C4 counterexample: with the non-empty queue [(0, 0)], enqueueing (1, 1)
and then popping the front returns the old head (0, 0), not (1, 1). -/
theorem C4_enqueue_pop_cex :
    (popFront (enqueue [⟨0, 0⟩] 1 1)).map Prod.fst ≠ some ⟨1, 1⟩ := by
  decide

/-- C4 amended: after enqueue(p, t), popFront always succeeds and restores
the pre-enqueue length, and the returned entry is the pre-enqueue head:
it equals (p, t) exactly when the queue was empty before the enqueue. -/
theorem C4_enqueue_pop_amended (q : List QueuedTrack) (p t : Int) :
    (popFront (enqueue q p t)).isSome = true ∧
    ∀ e rest, popFront (enqueue q p t) = some (e, rest) →
      rest.length = q.length ∧
      (q = [] → e = ⟨p, t⟩) ∧
      (∀ x xs, q = x :: xs → e = x) := by
  cases q with
  | nil =>
    refine ⟨rfl, ?_⟩
    intro e rest h
    simp only [enqueue, List.nil_append, popFront, Option.some.injEq, Prod.mk.injEq] at h
    obtain ⟨he, hrest⟩ := h
    subst he; subst hrest
    exact ⟨rfl, fun _ => rfl, fun x xs hx => nomatch hx⟩
  | cons x xs =>
    refine ⟨rfl, ?_⟩
    intro e rest h
    simp only [enqueue, List.cons_append, popFront, Option.some.injEq, Prod.mk.injEq] at h
    obtain ⟨he, hrest⟩ := h
    subst he; subst hrest
    refine ⟨by simp, fun h0 => absurd h0 (List.cons_ne_nil x xs), fun y ys hy => ?_⟩
    injection hy with h1 _

/-- Witness for C4 amended: at queue [(0, 0)] with the pair (1, 1), the pop
returns the old head (0, 0) and the length returns to one. -/
theorem C4_enqueue_pop_amended_witness :
    popFront (enqueue [⟨0, 0⟩] 1 1) = some (⟨0, 0⟩, [⟨1, 1⟩]) ∧
    ([⟨1, 1⟩] : List QueuedTrack).length = ([⟨0, 0⟩] : List QueuedTrack).length ∧
    (⟨0, 0⟩ : QueuedTrack) = ⟨0, 0⟩ :=
  ⟨by decide,
   ((C4_enqueue_pop_amended [⟨0, 0⟩] 1 1).2 ⟨0, 0⟩ [⟨1, 1⟩] (by decide)).1,
   ((C4_enqueue_pop_amended [⟨0, 0⟩] 1 1).2 ⟨0, 0⟩ [⟨1, 1⟩] (by decide)).2.2 ⟨0, 0⟩ [] rfl⟩

/-- C5 counterexample: with a single-playlist library, selecting the
out-of-range playlist index 5 changes both the selection and the status,
refuting the claim that an out-of-range selectPlaylist leaves the state
unchanged and reports OutOfRange. -/
theorem C5_select_playlist_cex :
    (handlePlaylistChange st3 5).currentPlaylistIndex ≠ st3.currentPlaylistIndex ∧
    (handlePlaylistChange st3 5).isPlaying ≠ st3.isPlaying := by
  decide

/-- C5 amended: handlePlaylistChange performs no bounds validation at all:
for any index different from the current one, in range or not, it sets the
selection to (index, 0) and the status to Playing; the library and the queue
are unchanged, and no error is reported (the handler has no error path). -/
theorem C5_select_playlist_amended (s : PlayerState) (index : Int)
    (h : some index ≠ s.currentPlaylistIndex) :
    handlePlaylistChange s index =
      { s with currentPlaylistIndex := some index,
               currentTrackIndex := some 0,
               isPlaying := true } ∧
    (handlePlaylistChange s index).playlists = s.playlists ∧
    (handlePlaylistChange s index).queue = s.queue := by
  unfold handlePlaylistChange
  rw [if_pos h]
  exact ⟨rfl, rfl, rfl⟩

/-- Witness for C5 amended at the out-of-range index 5 of a one-playlist
library. -/
theorem C5_select_playlist_amended_witness :
    some (5 : Int) ≠ st3.currentPlaylistIndex ∧
    (handlePlaylistChange st3 5 =
      { st3 with currentPlaylistIndex := some (5 : Int),
                 currentTrackIndex := some (0 : Int),
                 isPlaying := true } ∧
     (handlePlaylistChange st3 5).playlists = st3.playlists ∧
     (handlePlaylistChange st3 5).queue = st3.queue) :=
  ⟨by decide, C5_select_playlist_amended st3 5 (by decide)⟩

/-- C6 counterexample: with the last track (index 2 of 3) selected but a
non-empty queue, advance(Next) yields the queued track index (here 2), not
the wrap-around result 0, refuting the unconditional wrap-around claim. -/
theorem C6_wrap_cex :
    (manualAdvanceNext st4).currentTrackIndex ≠ some 0 := by
  decide

/-- C6 amended: for a selected playlist of size at least one and a set track
index, the wrap-around rule governs advance(Next) whenever the queue is
empty (with a non-empty queue the queue preempts it), and governs
advance(Previous) unconditionally: Next maps the last index to 0 and any
other index i to i + 1; Previous maps 0 to the last index and any other
index i to i - 1. -/
theorem C6_wrap_amended (s : PlayerState) (pl : Playlist) (i : Int)
    (hpl : currentPlaylist s = some pl) (hi : s.currentTrackIndex = some i)
    (_hn : 1 ≤ pl.tracks.length) :
    (s.queue = [] →
      (manualAdvanceNext s).currentTrackIndex =
        some (if i = (pl.tracks.length : Int) - 1 then 0 else i + 1)) ∧
    (playPrevious s).currentTrackIndex =
      some (if i = 0 then (pl.tracks.length : Int) - 1 else i - 1) := by
  constructor
  · intro hq
    unfold manualAdvanceNext playNext
    rw [hq, hpl, hi]
    rfl
  · unfold playPrevious
    rw [hpl, hi]
    rfl

/-- Witness for C6 amended at the empty-queue state st2, last track of three
selected: Next wraps to 0 and Previous steps back to 1. -/
theorem C6_wrap_amended_witness :
    currentPlaylist st2 = some plA ∧ st2.currentTrackIndex = some 2 ∧
    1 ≤ plA.tracks.length ∧
    ((st2.queue = [] →
      (manualAdvanceNext st2).currentTrackIndex =
        some (if (2 : Int) = (plA.tracks.length : Int) - 1 then 0 else 2 + 1)) ∧
     (playPrevious st2).currentTrackIndex =
       some (if (2 : Int) = 0 then (plA.tracks.length : Int) - 1 else 2 - 1)) :=
  ⟨by decide, rfl, by decide, C6_wrap_amended st2 plA 2 (by decide) rfl (by decide)⟩

/-- C7 counterexample: uploading the two tracks named "B.mp3" then "b.mp3"
(a tie under case-insensitive comparison, so the claimed order keeps
"B.mp3" first) actually produces the playlist with "b.mp3" first, because
localeCompare is not case-insensitive on case-variants: it orders lowercase
before uppercase. -/
theorem C7_upload_sort_cex :
    (handleFileUpload initialState "z.zip" [bUp, bLo]).playlists
      ≠ [{ name := "z.zip", tracks := specSortTracks [bUp, bLo] }] := by
  decide

/-- C7 amended: for every non-empty track list, the upload appends exactly
one playlist whose tracks are the given tracks stably sorted by the
localeCompare order: sorted so that consecutive tracks compare non-positive
under localeCompare (case-insensitive at the primary level, but names that
differ only in case are ordered lowercase-first rather than keeping upload
order), a permutation of the input, and with any input pair already in
localeCompare order (in particular, exact ties) keeping its relative
order. -/
theorem C7_upload_sort_amended (s : PlayerState) (zipName : String)
    (audioFiles : List Track) (hne : audioFiles ≠ []) :
    (handleFileUpload s zipName audioFiles).playlists
      = s.playlists ++ [{ name := zipName, tracks := sortTracks audioFiles }] ∧
    (sortTracks audioFiles).Pairwise trackLe ∧
    List.Perm (sortTracks audioFiles) audioFiles ∧
    (∀ a b : Track, trackLe a b → List.Sublist [a, b] audioFiles →
      List.Sublist [a, b] (sortTracks audioFiles)) := by
  refine ⟨?_, ?_, ?_, ?_⟩
  · unfold handleFileUpload
    rw [if_pos (List.length_pos.mpr hne)]
    by_cases h : s.currentPlaylistIndex = none
    · rw [if_pos h]
    · rw [if_neg h]
  · exact List.sorted_insertionSort trackLe audioFiles
  · exact List.perm_insertionSort trackLe audioFiles
  · exact fun a b hab hsub => List.pair_sublist_insertionSort hab hsub

/-- Witness for C7 amended at the concrete upload of ["B.mp3", "b.mp3"]. -/
theorem C7_upload_sort_amended_witness :
    ([bUp, bLo] : List Track) ≠ [] ∧
    (handleFileUpload initialState "z.zip" [bUp, bLo]).playlists
      = initialState.playlists ++ [{ name := "z.zip", tracks := sortTracks [bUp, bLo] }] ∧
    (sortTracks [bUp, bLo]).Pairwise trackLe ∧
    List.Perm (sortTracks [bUp, bLo]) [bUp, bLo] :=
  ⟨by decide,
   (C7_upload_sort_amended initialState "z.zip" [bUp, bLo] (by decide)).1,
   (C7_upload_sort_amended initialState "z.zip" [bUp, bLo] (by decide)).2.1,
   (C7_upload_sort_amended initialState "z.zip" [bUp, bLo] (by decide)).2.2.1⟩

/-- C8 counterexample: an upload whose extraction yields no audio tracks
leaves the state unchanged but reports nothing at all — in particular not
the EmptyPlaylist error the claim asserts — so the conjunction claimed
(unchanged state and an EmptyPlaylist report) is false. -/
theorem C8_empty_upload_cex :
    ¬ ((handleFileUploadE st3 "empty.zip" (Except.ok [])).1 = st3 ∧
       (handleFileUploadE st3 "empty.zip" (Except.ok [])).2
         = some UploadError.EmptyPlaylist) := by
  decide

/-- C8 amended: an upload whose extracted track set is empty is a complete
silent no-op: no playlist is created, the whole state (library, selection,
status, queue) is unchanged, there is no crash and no partial mutation, and
no error value is reported. -/
theorem C8_empty_upload_amended (s : PlayerState) (zipName : String) :
    handleFileUploadE s zipName (Except.ok []) = (s, none) := by
  rfl

/-- C9 counterexample: the invariant holds in the initial state, yet
selectTrack (one of the operations the claim enumerates) applied there sets
only the track index and breaks it, since the code guards selectTrack only
through the UI (the track list is rendered only when a playlist is
selected), not in the handler itself. -/
theorem C9_selectTrack_breaks_invariant_cex :
    selectionInv initialState ∧ ¬ selectionInv (selectTrack initialState 0) := by
  decide

/-- C9 amended: the both-none-or-both-set selection invariant holds
initially and is preserved by selectPlaylist, togglePlayPause, manual and
automatic advance in both directions, enqueue, dequeueAt and upload; the
remaining operation selectTrack preserves it exactly under the condition the
UI enforces at its only call site, namely that a playlist is already
selected. -/
theorem C9_selection_invariant_amended (s : PlayerState) (hs : selectionInv s)
    (index qIdx p t : Int) (zipName : String) (audioFiles : List Track) :
    selectionInv initialState ∧
    selectionInv (handlePlaylistChange s index) ∧
    selectionInv (togglePlayPause s) ∧
    selectionInv (playNext s) ∧
    selectionInv (playPrevious s) ∧
    selectionInv (onTrackEnded s) ∧
    selectionInv (addToQueue s p t) ∧
    selectionInv (removeFromQueue s qIdx) ∧
    selectionInv (handleFileUpload s zipName audioFiles) ∧
    (s.currentPlaylistIndex ≠ none → selectionInv (selectTrack s index)) := by
  have hnext : selectionInv (playNext s) := by
    unfold playNext
    cases hq : s.queue with
    | cons e rest => simp [selectionInv]
    | nil =>
      cases hpl : currentPlaylist s with
      | none => exact hs
      | some pl =>
        unfold currentPlaylist at hpl
        cases hci : s.currentPlaylistIndex with
        | none => rw [hci] at hpl; simp at hpl
        | some j => simp [selectionInv, hci]
  have hprev : selectionInv (playPrevious s) := by
    unfold playPrevious
    cases hpl : currentPlaylist s with
    | none => exact hs
    | some pl =>
      unfold currentPlaylist at hpl
      cases hci : s.currentPlaylistIndex with
      | none => rw [hci] at hpl; simp at hpl
      | some j => simp [selectionInv, hci]
  have hchange : selectionInv (handlePlaylistChange s index) := by
    unfold handlePlaylistChange
    by_cases h : some index ≠ s.currentPlaylistIndex
    · rw [if_pos h]; simp [selectionInv]
    · rw [if_neg h]; exact hs
  have htoggle : selectionInv (togglePlayPause s) := by
    unfold togglePlayPause
    cases ht : s.currentTrackIndex with
    | none => exact hs
    | some k =>
      simp only [selectionInv] at hs ⊢
      rw [ht] at hs
      simpa using hs
  have hupload : selectionInv (handleFileUpload s zipName audioFiles) := by
    unfold handleFileUpload
    by_cases hlen : audioFiles.length > 0
    · rw [if_pos hlen]
      by_cases hsel : s.currentPlaylistIndex = none
      · rw [if_pos hsel]; simp [selectionInv]
      · rw [if_neg hsel]; exact hs
    · rw [if_neg hlen]; exact hs
  have hselect : s.currentPlaylistIndex ≠ none → selectionInv (selectTrack s index) := by
    intro hnz
    unfold selectTrack
    simp [selectionInv, hnz]
  exact ⟨by decide, hchange, htoggle, hnext, hprev, hnext, hs, hs, hupload, hselect⟩

/-- Witness for C9 amended at a concrete invariant-satisfying state with a
playlist selected. -/
theorem C9_selection_invariant_amended_witness :
    selectionInv st3 ∧ selectionInv (playNext st3) ∧ selectionInv (selectTrack st3 0) :=
  ⟨by decide,
   (C9_selection_invariant_amended st3 (by decide) 0 0 0 0 "z.zip" []).2.2.2.1,
   (C9_selection_invariant_amended st3 (by decide) 0 0 0 0 "z.zip" []).2.2.2.2.2.2.2.2.2
     (by decide)⟩

/-- C10: from a state with an empty library and no selection, an upload with
a non-empty extracted track set creates the first playlist, sets the
selection to playlist 0, track 0, and leaves the playing flag exactly as it
was: an upload never starts playback by itself. -/
theorem C10_first_upload_selects_first_track (s : PlayerState) (zipName : String)
    (audioFiles : List Track) (hlib : s.playlists = [])
    (hsel : s.currentPlaylistIndex = none) (hne : audioFiles ≠ []) :
    (handleFileUpload s zipName audioFiles).currentPlaylistIndex = some 0 ∧
    (handleFileUpload s zipName audioFiles).currentTrackIndex = some 0 ∧
    (handleFileUpload s zipName audioFiles).isPlaying = s.isPlaying ∧
    (handleFileUpload s zipName audioFiles).playlists
      = [{ name := zipName, tracks := sortTracks audioFiles }] := by
  unfold handleFileUpload
  rw [if_pos (List.length_pos.mpr hne), if_pos hsel]
  refine ⟨rfl, rfl, rfl, ?_⟩
  simp [hlib]

/-- Witness for C10: the very first upload of ["B.mp3", "b.mp3"] from the
initial state selects (0, 0) and stays paused. -/
theorem C10_first_upload_selects_first_track_witness :
    initialState.playlists = [] ∧ initialState.currentPlaylistIndex = none ∧
    ([bUp, bLo] : List Track) ≠ [] ∧
    ((handleFileUpload initialState "z.zip" [bUp, bLo]).currentPlaylistIndex = some 0 ∧
     (handleFileUpload initialState "z.zip" [bUp, bLo]).currentTrackIndex = some 0 ∧
     (handleFileUpload initialState "z.zip" [bUp, bLo]).isPlaying = initialState.isPlaying ∧
     (handleFileUpload initialState "z.zip" [bUp, bLo]).playlists
       = [{ name := "z.zip", tracks := sortTracks [bUp, bLo] }]) :=
  ⟨rfl, rfl, by decide,
   C10_first_upload_selects_first_track initialState "z.zip" [bUp, bLo] rfl rfl (by decide)⟩

end WebSongPlayer
